import Mathlib

/-!
Verification of the staging-to-3NF transformation engine of the
job-postings ETL repository (`src/transformation.py`), against its
natural-language specification.

The Python module is shallowly embedded: the staging table and the eight
destination tables become lists of records, SQL statements become pure
list transformations, and the batched insert loops become structural
recursions over windows of the deterministically ordered result sets.
SQL three-valued logic (`NULL` comparisons), `COALESCE`, `TRIM`,
`LOWER`, the `via|melalui` prefix regex, Python `str.strip` /
`str.lower` / `str.split(',')` and the insert-if-absent conflict policy
are all modelled explicitly.

Conventions of the embedding:
* nullable columns are `Option` values; SQL `=` in a join or `WHERE`
  never matches a `NULL` (`sqlEqOpt`);
* the staging list is kept in ascending order of its stable `id`
  column, so `ORDER BY s.id` is the list order of the filtered rows
  after the stable sort by `id`;
* surrogate ids are assigned deterministically as `table.length + 1` at
  insertion time (the `SERIAL` columns live in `sql/schema.sql`, which
  is not part of the sources; modelled from the spec, which requires
  deterministic rebuild from a purged state);
* the natural-key unique constraints (also from `sql/schema.sql`) are
  modelled from the spec as plain tuple equality, and
  `ON CONFLICT ... DO NOTHING` as insert-if-absent under that equality.
-/

namespace JobETL

/-! ## String primitives

Python `str.strip`/`str.lower`/`str.split(',')` and SQL `TRIM`/`LOWER`
are modelled by explicit recursion over the character list of a
`String`.  SQL `TRIM(x)` (Postgres `btrim`) removes space characters,
Python `str.strip()` removes all whitespace. -/

/-- Remove leading and trailing characters satisfying `p` from a
character list. -/
def trimCharsBy (p : Char → Bool) (cs : List Char) : List Char :=
  ((cs.dropWhile p).reverse.dropWhile p).reverse

/-- SQL `TRIM(x)`: strip space characters from both ends. -/
def sqlTrim (s : String) : String :=
  ⟨trimCharsBy (fun c => c = ' ') s.data⟩

/-- Python `str.strip()`: strip whitespace from both ends. -/
def pyStrip (s : String) : String :=
  ⟨trimCharsBy Char.isWhitespace s.data⟩

/-- SQL `LOWER` / Python `str.lower()` (character-wise lowercasing). -/
def lowerStr (s : String) : String :=
  ⟨s.data.map Char.toLower⟩

/-- Python `str.split(',')` on a character list: always returns at
least one (possibly empty) segment. -/
def splitCommaChars : List Char → List (List Char)
  | [] => [[]]
  | c :: cs =>
    match splitCommaChars cs with
    | [] => [[]]
    | h :: t => if c = ',' then [] :: h :: t else (c :: h) :: t

/-- Python `str.split(',')`. -/
def splitComma (s : String) : List String :=
  (splitCommaChars s.data).map (fun cs => ⟨cs⟩)

/-- Case-insensitive match of the keyword `kw` at the head of `cs`;
returns the remainder on success. -/
def matchHeadCI : List Char → List Char → Option (List Char)
  | [], rest => some rest
  | _ :: _, [] => none
  | p :: ps, c :: cs => if c.toLower = p.toLower then matchHeadCI ps cs else none

/-- One alternative of `REGEXP_REPLACE(x, '^(via|melalui)\s+', '', 'i')`:
the keyword must be followed by at least one whitespace character, and
the whole maximal whitespace run after it is removed (`\s+` is greedy). -/
def stripKeywordCI (kw : List Char) (cs : List Char) : Option (List Char) :=
  match matchHeadCI kw cs with
  | some (c :: rest) =>
    if c.isWhitespace then some (rest.dropWhile Char.isWhitespace) else none
  | _ => none

/-- `REGEXP_REPLACE(job_via, '^(via|melalui)\s+', '', 'i')`. -/
def stripViaMarker (s : String) : String :=
  match stripKeywordCI "via".data s.data with
  | some r => ⟨r⟩
  | none =>
    match stripKeywordCI "melalui".data s.data with
    | some r => ⟨r⟩
    | none => s

/-- The cleaned platform name:
`TRIM(REGEXP_REPLACE(job_via, '^(via|melalui)\s+', '', 'i'))`. -/
def platformClean (s : String) : String :=
  sqlTrim (stripViaMarker s)

/-! ## SQL helpers -/

/-- SQL equality under three-valued logic, as used in a `JOIN`/`WHERE`
condition: a comparison involving `NULL` is never true. -/
def sqlEqOpt {α : Type} [DecidableEq α] : Option α → Option α → Bool
  | some a, some b => a = b
  | _, _ => false

/-- The predicate `TRIM(x) != ''` (equivalently
`x IS NOT NULL AND TRIM(x) <> ''`) under three-valued logic: it is not
satisfied when `x` is `NULL`. -/
def trimNeBlank : Option String → Bool
  | some s => sqlTrim s ≠ ""
  | none => false

/-- SQL `COALESCE(x, d)` for a nullable string against a literal. -/
def coalesce (a : Option String) (d : String) : String :=
  a.getD d

/-- SQL `COALESCE(a, b)` of two nullable columns. -/
def coalesceOpt (a b : Option String) : Option String :=
  match a with
  | some x => some x
  | none => b

/-- `SELECT DISTINCT` over an ordered result list: keep the first
occurrence of each value. -/
def distinct {α : Type} [DecidableEq α] (l : List α) : List α :=
  l.foldl (fun acc a => if a ∈ acc then acc else acc ++ [a]) []

/-! ## Data model

One record type per table of the schema (§3 of the spec), with the
staging columns listed in §6. -/

/-- One row of `staging_jobs`.  `id` is the stable monotonic row
identifier used for batch ordering. -/
structure StagingRow where
  id : Nat
  job_title : Option String := none
  job_title_short : Option String := none
  job_location : Option String := none
  job_country : Option String := none
  job_via : Option String := none
  job_schedule_type : Option String := none
  job_work_from_home : Option Bool := none
  job_posted_date : Option String := none
  job_no_degree_mention : Option Bool := none
  job_health_insurance : Option Bool := none
  salary_rate : Option String := none
  salary_year_avg : Option String := none
  salary_hour_avg : Option String := none
  search_location : Option String := none
  company_name : Option String := none
  job_skills : Option (List String) := none
  job_type_skills : Option (List (String × List String)) := none
  deriving DecidableEq, Repr, Inhabited

/-- One row of `locations` (without its surrogate id). -/
structure LocationRow where
  main_city : Option String
  main_state_province : Option String
  country : String
  full_location : String
  deriving DecidableEq, Repr, Inhabited

/-- One row of `skills` (without its surrogate id). -/
structure SkillRow where
  skill_name : String
  category_id : Option Nat
  deriving DecidableEq, Repr, Inhabited

/-- One row of the `jobs` fact table (without its surrogate id). -/
structure JobRow where
  job_title : Option String
  job_title_short : Option String
  company_id : Option Nat
  location_id : Option Nat
  platform_id : Option Nat
  schedule_type_id : Option Nat
  job_work_from_home : Option Bool
  job_posted_date : Option String
  job_no_degree_mention : Option Bool
  job_health_insurance : Option Bool
  salary_rate : Option String
  salary_year_avg : Option String
  salary_hour_avg : Option String
  search_location : Option String
  deriving DecidableEq, Repr, Inhabited

/-- The relational store: the staging table plus the eight destination
tables.  Rows of tables with a surrogate id are paired with it. -/
structure DB where
  staging_jobs : List StagingRow
  companies : List (Nat × String)
  locations : List (Nat × LocationRow)
  platforms : List (Nat × String)
  schedule_types : List (Nat × String)
  skill_categories : List (Nat × String)
  skills : List (Nat × SkillRow)
  jobs : List (Nat × JobRow)
  job_skills : List (Nat × Nat)
  deriving DecidableEq, Repr, Inhabited

/-- `INSERT ... ON CONFLICT (natural key) DO NOTHING` into a table with
a surrogate id: insert-if-absent keyed on `key`, assigning the next id. -/
def insertDim {ρ κ : Type} [DecidableEq κ] (key : ρ → κ)
    (t : List (Nat × ρ)) (v : ρ) : List (Nat × ρ) :=
  if t.any (fun r => key r.2 = key v) then t else t ++ [(t.length + 1, v)]

/-- `INSERT INTO job_skills ... ON CONFLICT DO NOTHING`: insert-if-absent
on the (job_id, skill_id) pair. -/
def insertPair (t : List (Nat × Nat)) (p : Nat × Nat) : List (Nat × Nat) :=
  if p ∈ t then t else t ++ [p]

/-! ## Location Normalizer (`extract_location_components`) -/

/-- The dictionary returned by `extract_location_components`. -/
structure LocComponents where
  city : Option String
  state_province : Option String
  country : Option String
  deriving DecidableEq, Repr, Inhabited

/-- Python truthiness on a parsed segment:
`parts[i] if parts[i] else None`. -/
def emptyToNone (s : String) : Option String :=
  if s = "" then none else some s

/-- `DataTransformation.extract_location_components`.  A `none`
location models both Python `None` and `NaN` (the `pd.isna` branch);
the empty string is falsy and takes the same branch.  Otherwise the
string is stripped, split on commas, and each part stripped. -/
def extract_location_components (location_string : Option String)
    (country : Option String) : LocComponents :=
  match location_string with
  | none => ⟨none, none, country⟩
  | some raw =>
    if raw = "" then ⟨none, none, country⟩
    else
      let parts := (splitComma (pyStrip raw)).map pyStrip
      match parts with
      | p1 :: p2 :: _ :: _ => ⟨emptyToNone p1, emptyToNone p2, country⟩
      | [p1, p2] => ⟨emptyToNone p1, emptyToNone p2, country⟩
      | [p1] => ⟨emptyToNone p1, none, country⟩
      | [] => ⟨none, none, country⟩

/-! ## Purge step (`delete_previous_info`)

Deletes all rows of the eight destination tables, children before
parents; the staging table is untouched. -/

/-- `DataTransformation.delete_previous_info`. -/
def delete_previous_info (db : DB) : DB :=
  { db with
    job_skills := []
    jobs := []
    skills := []
    skill_categories := []
    companies := []
    locations := []
    platforms := []
    schedule_types := [] }

/-! ## Dimension populators -/

/-- The source values of `populate_companies`:
`SELECT DISTINCT TRIM(COALESCE(company_name, 'Unknown')) FROM
staging_jobs WHERE TRIM(company_name) != ''`.  Note that under
three-valued logic the `WHERE` clause already excludes `NULL` names, so
the `COALESCE` branch is unreachable for them. -/
def companySourceNames (staging : List StagingRow) : List String :=
  distinct ((staging.filter (fun s => trimNeBlank s.company_name)).map
    (fun s => sqlTrim (coalesce s.company_name "Unknown")))

/-- `DataTransformation.populate_companies`: insert-if-absent on the
unique `company_name`. -/
def populate_companies (db : DB) : DB :=
  { db with
    companies := (companySourceNames db.staging_jobs).foldl
      (fun t v => insertDim (fun n => n) t v) db.companies }

/-- The row written by `populate_locations` for one distinct
`(job_location, job_country)` pair: the Location Normalizer output,
with `COALESCE(:country, 'Unknown')` and
`COALESCE(:full_location, 'Unknown')` applied at persistence time. -/
def locationRowOf (loc country : Option String) : LocationRow :=
  let comps := extract_location_components loc country
  { main_city := comps.city
    main_state_province := comps.state_province
    country := coalesce comps.country "Unknown"
    full_location := coalesce loc "Unknown" }

/-- `DataTransformation.populate_locations`: fetch the distinct
`(job_location, job_country)` pairs, normalize each host-side, and
issue one insert-if-absent per pair, keyed on the whole 4-tuple. -/
def populate_locations (db : DB) : DB :=
  let pairs := distinct (db.staging_jobs.map (fun s => (s.job_location, s.job_country)))
  { db with
    locations := pairs.foldl
      (fun t pr => insertDim (fun r => r) t (locationRowOf pr.1 pr.2)) db.locations }

/-- The source values of `populate_platforms`: distinct cleaned
`job_via` values of the non-`NULL`, non-blank rows. -/
def platformSourceNames (staging : List StagingRow) : List String :=
  distinct (staging.filterMap (fun s =>
    match s.job_via with
    | some v => if sqlTrim v ≠ "" then some (platformClean v) else none
    | none => none))

/-- `DataTransformation.populate_platforms`: insert-if-absent on the
unique `platform_name`. -/
def populate_platforms (db : DB) : DB :=
  { db with
    platforms := (platformSourceNames db.staging_jobs).foldl
      (fun t v => insertDim (fun n => n) t v) db.platforms }

/-- The source values of `populate_schedule_types`: distinct trimmed
`job_schedule_type` values of the non-`NULL`, non-blank rows. -/
def scheduleSourceNames (staging : List StagingRow) : List String :=
  distinct (staging.filterMap (fun s =>
    match s.job_schedule_type with
    | some v => if sqlTrim v ≠ "" then some (sqlTrim v) else none
    | none => none))

/-- `DataTransformation.populate_schedule_types`: insert-if-absent on
the unique `schedule_type_name`. -/
def populate_schedule_types (db : DB) : DB :=
  { db with
    schedule_types := (scheduleSourceNames db.staging_jobs).foldl
      (fun t v => insertDim (fun n => n) t v) db.schedule_types }

/-! ## Skill Taxonomy Builder
(`populate_skill_categories_and_skills`) -/

/-- Add a category to the accumulated category → skill-set association
(Python: `all_categories.add(category)` together with the
`skills_by_category` dict entry), keeping first-seen order. -/
def addCat (acc : List (String × List String)) (cat : String) :
    List (String × List String) :=
  if acc.any (fun p => p.1 = cat) then acc else acc ++ [(cat, [])]

/-- Add a (already lowercased and stripped) skill to its category's
set (Python: `skills_by_category[category].add(...)`). -/
def addSkill (acc : List (String × List String)) (cat : String) (sk : String) :
    List (String × List String) :=
  acc.map (fun p =>
    if p.1 = cat then (p.1, if sk ∈ p.2 then p.2 else p.2 ++ [sk]) else p)

/-- The Python loop over the distinct `job_type_skills` dictionaries:
collect every category and, per category, the set of its
`skill.lower().strip()` values across all rows (empty skills are falsy
and skipped).  Categories and skills are kept in first-seen order. -/
def collectTyped (rows : List (List (String × List String))) :
    List (String × List String) :=
  rows.foldl (fun acc dict =>
    dict.foldl (fun acc2 entry =>
      entry.2.foldl
        (fun a sk => if sk = "" then a else addSkill a entry.1 (lowerStr (pyStrip sk)))
        (addCat acc2 entry.1)) acc) []

/-- `DataTransformation.populate_skill_categories_and_skills`:
insert the categories, resolve their ids, insert each categorized
skill carrying its category id (conflict on `skill_name` keeps the
first insertion), then insert the distinct unnested flat `job_skills`
values, lowercased and stripped, with `NULL` category if absent. -/
def populate_skill_categories_and_skills (db : DB) : DB :=
  let typedRows := distinct (db.staging_jobs.filterMap (fun s => s.job_type_skills))
  let catSkills := collectTyped typedRows
  let cats := catSkills.foldl (fun t c => insertDim (fun n => n) t c.1) db.skill_categories
  let categorizedSkills : List SkillRow :=
    catSkills.foldl (fun acc c =>
      acc ++ c.2.map (fun sk =>
        ⟨sk, (cats.find? (fun p => p.2 = c.1)).map (fun p => p.1)⟩)) []
  let skills1 := categorizedSkills.foldl
    (fun t r => insertDim (fun r => r.skill_name) t r) db.skills
  let flatRaw := distinct ((db.staging_jobs.filterMap (fun s => s.job_skills)).flatMap
    (fun l => l))
  let skills2 := flatRaw.foldl
    (fun t nm => insertDim (fun r => r.skill_name) t ⟨lowerStr (pyStrip nm), none⟩) skills1
  { db with skill_categories := cats, skills := skills2 }

/-! ## Batching machinery

Both batched stages precompute a total row count, then loop
`while offset < total`, issuing the ordered insert query with
`LIMIT batch OFFSET offset` and advancing `offset += batch`.  The loop
is modelled with explicit fuel (`total` iterations suffice since the
batch size is positive). -/

/-- `BATCH_SIZE = 10000`. -/
def BATCH_SIZE : Nat := 10000

/-- The list of batch windows produced by the offset loop, with fuel. -/
def batchesAux {α : Type} (rows : List α) (total batch : Nat) :
    Nat → Nat → List (List α)
  | 0, _ => []
  | fuel + 1, offset =>
    if offset < total then
      ((rows.drop offset).take batch) :: batchesAux rows total batch fuel (offset + batch)
    else []

/-- The batch windows of the `while offset < total` loop over the
ordered result list `rows`. -/
def batches {α : Type} (rows : List α) (total batch : Nat) : List (List α) :=
  batchesAux rows total batch total 0

/-! ## Fact populator (`populate_jobs`) -/

/-- The exclusion predicate:
`NOT (job_title IS NULL AND job_title_short IS NULL)`. -/
def jobsPredicate (s : StagingRow) : Bool :=
  !(s.job_title.isNone && s.job_title_short.isNone)

/-- Insertion sort (stable) used to model `ORDER BY`. -/
def insertSorted {α : Type} (le : α → α → Bool) (a : α) : List α → List α
  | [] => [a]
  | b :: l => if le a b then a :: b :: l else b :: insertSorted le a l

/-- Sort a list by the boolean relation `le` (models `ORDER BY`). -/
def sortBy {α : Type} (le : α → α → Bool) (l : List α) : List α :=
  l.foldr (insertSorted le) []

/-- The qualifying staging rows in `ORDER BY s.id` order. -/
def jobsSourceRows (staging : List StagingRow) : List StagingRow :=
  sortBy (fun a b => a.id ≤ b.id) (staging.filter jobsPredicate)

/-- `SELECT COUNT(*) FROM staging_jobs WHERE NOT (job_title IS NULL AND
job_title_short IS NULL)` — the total computed once up front. -/
def jobsTotal (db : DB) : Nat :=
  (db.staging_jobs.filter jobsPredicate).length

/-- The ids of the rows of a dimension table matching a join
predicate on the row payload. -/
def dimMatches {ρ : Type} (t : List (Nat × ρ)) (p : ρ → Bool) : List Nat :=
  (t.filter (fun r => p r.2)).map (fun r => r.1)

/-- `LEFT JOIN` id list: no match yields a single `NULL` key,
otherwise one output row per matching dimension row. -/
def leftIds (ms : List Nat) : List (Option Nat) :=
  match ms with
  | [] => [none]
  | ms => ms.map some

/-- `LEFT JOIN companies c ON TRIM(COALESCE(s.company_name, 'Unknown'))
= c.company_name`. -/
def companyMatches (db : DB) (s : StagingRow) : List Nat :=
  dimMatches db.companies
    (fun n => n = sqlTrim (coalesce s.company_name "Unknown"))

/-- `LEFT JOIN locations l ON COALESCE(s.job_country, 'Unknown') =
l.country AND COALESCE(s.job_location, 'Unknown') = l.full_location`. -/
def locationMatches (db : DB) (s : StagingRow) : List Nat :=
  dimMatches db.locations
    (fun l => l.country = coalesce s.job_country "Unknown"
              ∧ l.full_location = coalesce s.job_location "Unknown")

/-- `LEFT JOIN platforms p ON TRIM(REGEXP_REPLACE(s.job_via, ...)) =
p.platform_name`; a `NULL` `job_via` never matches. -/
def platformMatches (db : DB) (s : StagingRow) : List Nat :=
  match s.job_via with
  | none => []
  | some v => dimMatches db.platforms (fun n => n = platformClean v)

/-- `LEFT JOIN schedule_types st ON TRIM(s.job_schedule_type) =
st.schedule_type_name`; a `NULL` schedule type never matches. -/
def scheduleMatches (db : DB) (s : StagingRow) : List Nat :=
  match s.job_schedule_type with
  | none => []
  | some v => dimMatches db.schedule_types (fun n => n = sqlTrim v)

/-- The fact rows produced from one staging row by the `SELECT` of
`populate_jobs`: one row per combination of left-joined dimension
matches, with `job_title = COALESCE(s.job_title, s.job_title_short)`. -/
def jobRowsFor (db : DB) (s : StagingRow) : List JobRow :=
  (leftIds (companyMatches db s)).flatMap (fun cid =>
    (leftIds (locationMatches db s)).flatMap (fun lid =>
      (leftIds (platformMatches db s)).flatMap (fun pid =>
        (leftIds (scheduleMatches db s)).map (fun stid =>
          { job_title := coalesceOpt s.job_title s.job_title_short
            job_title_short := s.job_title_short
            company_id := cid
            location_id := lid
            platform_id := pid
            schedule_type_id := stid
            job_work_from_home := s.job_work_from_home
            job_posted_date := s.job_posted_date
            job_no_degree_mention := s.job_no_degree_mention
            job_health_insurance := s.job_health_insurance
            salary_rate := s.salary_rate
            salary_year_avg := s.salary_year_avg
            salary_hour_avg := s.salary_hour_avg
            search_location := s.search_location }))))

/-- The full ordered result set of the insert query of
`populate_jobs` (before `LIMIT`/`OFFSET`). -/
def jobsData (db : DB) : List JobRow :=
  (jobsSourceRows db.staging_jobs).flatMap (jobRowsFor db)

/-- The per-batch inserted-row counts reported by `populate_jobs`
(plain insert: the row count of each window). -/
def jobsBatchCounts (db : DB) : List Nat :=
  (batches (jobsData db) (jobsTotal db) BATCH_SIZE).map List.length

/-- `DataTransformation.populate_jobs`: append the concatenation of
the batch windows to the fact table, assigning surrogate ids in
insertion order. -/
def populate_jobs (db : DB) : DB :=
  let ins := (batches (jobsData db) (jobsTotal db) BATCH_SIZE).flatten
  { db with
    jobs := db.jobs ++ ins.enum.map (fun p => (db.jobs.length + p.1 + 1, p.2)) }

/-! ## Bridge populator (`populate_job_skills`) -/

/-- The join of the insert query of `populate_job_skills`:
`jobs JOIN staging_jobs ON j.job_title = stg.job_title AND
j.job_posted_date = stg.job_posted_date`, then
`CROSS JOIN LATERAL UNNEST(stg.job_skills)` (zero rows for a `NULL`
array), then `JOIN skills ON LOWER(TRIM(s_name)) =
LOWER(s_map.skill_name)`; outputs `(job_id, skill_id)` pairs. -/
def bridgeJoinRows (db : DB) : List (Nat × Nat) :=
  db.jobs.flatMap (fun j =>
    db.staging_jobs.flatMap (fun stg =>
      if sqlEqOpt j.2.job_title stg.job_title
          && sqlEqOpt j.2.job_posted_date stg.job_posted_date then
        (stg.job_skills.getD []).flatMap (fun nm =>
          (dimMatches db.skills
            (fun m => lowerStr (sqlTrim nm) = lowerStr m.skill_name)).map
            (fun sid => (j.1, sid)))
      else []))

/-- `ORDER BY j.job_id, s_map.skill_id` (lexicographic). -/
def pairLE (a b : Nat × Nat) : Bool :=
  a.1 < b.1 || (a.1 = b.1 && a.2 ≤ b.2)

/-- The ordered result set of the bridge insert query. -/
def bridgeData (db : DB) : List (Nat × Nat) :=
  sortBy pairLE (bridgeJoinRows db)

/-- The precomputed `SELECT count(*)` over the same join. -/
def bridgeTotal (db : DB) : Nat :=
  (bridgeJoinRows db).length

/-- The per-batch inserted-row counts reported by
`populate_job_skills`: the rows of each window actually inserted by
`ON CONFLICT DO NOTHING` against the running table state. -/
def batchInsertCounts (t : List (Nat × Nat)) :
    List (List (Nat × Nat)) → List Nat
  | [] => []
  | w :: ws =>
    ((w.foldl insertPair t).length - t.length)
      :: batchInsertCounts (w.foldl insertPair t) ws

/-- The reported counts of the bridge stage of `db`. -/
def bridgeBatchCounts (db : DB) : List Nat :=
  batchInsertCounts db.job_skills
    (batches (bridgeData db) (bridgeTotal db) (BATCH_SIZE * 10))

/-- `DataTransformation.populate_job_skills`: fold the batch windows
into the bridge table with insert-if-absent on the (job, skill) pair. -/
def populate_job_skills (db : DB) : DB :=
  { db with
    job_skills :=
      ((batches (bridgeData db) (bridgeTotal db) (BATCH_SIZE * 10)).flatten).foldl
        insertPair db.job_skills }

/-! ## Orchestrator (`run_transformation`)

Purge, then the five dimension populators, then facts, then the
bridge, in the source order. -/

/-- The state after the purge and the five dimension-stage populators
of `run_transformation`. -/
def afterDims (db : DB) : DB :=
  populate_skill_categories_and_skills
    (populate_schedule_types
      (populate_platforms
        (populate_locations
          (populate_companies
            (delete_previous_info db)))))

/-- The state after the fact populator of `run_transformation`. -/
def afterJobs (db : DB) : DB :=
  populate_jobs (afterDims db)

/-- `DataTransformation.run_transformation`. -/
def run_transformation (db : DB) : DB :=
  populate_job_skills (afterJobs db)

/-! ## Concrete scenarios

Small staging snapshots used to evaluate the pipeline at concrete
inputs. -/

/-- A store holding only a staging table, all destination tables
empty. -/
def emptyDB (staging : List StagingRow) : DB :=
  ⟨staging, [], [], [], [], [], [], [], []⟩

/-- Staging snapshot with one `NULL` company name and one blank
company name (both rows otherwise qualifying). -/
def c1DB : DB := emptyDB [
  { id := 1, job_title := some "T" },
  { id := 2, job_title := some "U", company_name := some "   " }]

/-- Staging snapshot whose single row has a `NULL` raw title, a
title-short, a posted date and a non-empty skill list. -/
def c2DB : DB := emptyDB [
  { id := 1, job_title_short := some "Engineer",
    job_posted_date := some "2023-01-01",
    job_skills := some ["python"] }]

/-- Staging snapshot where one row has a `NULL` location and another
the literal location "Unknown" with the same country (two location
rows sharing the (country, full_location) join key), and the first
row's flat skill list holds the same skill in two spellings. -/
def c3DB : DB := emptyDB [
  { id := 1, job_title := some "T", job_posted_date := some "2023-01-01",
    job_country := some "USA", job_skills := some ["Python", "python"] },
  { id := 2, job_title := some "U", job_posted_date := some "2023-01-02",
    job_location := some "Unknown", job_country := some "USA" }]

/-- The staging snapshot of the skill-taxonomy scenario: typed skills
`{"programming": ["Python", "SQL"]}` and flat skills
`["python", "sql", "aws"]`. -/
def c8DB : DB := emptyDB [
  { id := 1, job_title := some "T",
    job_type_skills := some [("programming", ["Python", "SQL"])],
    job_skills := some ["python", "sql", "aws"] }]

/-- A well-behaved one-row staging snapshot (non-`NULL` title, date,
location and skill list) used to instantiate the universally
quantified theorems at a concrete input. -/
def wDB : DB := emptyDB [
  { id := 1, job_title := some "T", job_posted_date := some "2023-05-05",
    job_location := some "NYC, NY", job_country := some "USA",
    job_skills := some ["Python"] }]

/-! ## Helper lemmas: insert-if-absent -/

theorem insertPair_mem (t : List (Nat × Nat)) (p x : Nat × Nat) :
    x ∈ insertPair t p ↔ x ∈ t ∨ x = p := by
  unfold insertPair
  by_cases h : p ∈ t
  · rw [if_pos h]
    constructor
    · exact Or.inl
    · rintro (hx | rfl)
      · exact hx
      · exact h
  · rw [if_neg h]
    simp [List.mem_append]

theorem foldl_insertPair_mem (l : List (Nat × Nat)) (t : List (Nat × Nat))
    (x : Nat × Nat) : x ∈ l.foldl insertPair t ↔ x ∈ t ∨ x ∈ l := by
  induction l generalizing t with
  | nil => simp
  | cons a l ih =>
    rw [List.foldl_cons, ih, insertPair_mem]
    simp [or_assoc]

theorem foldl_insertPair_nodup (l : List (Nat × Nat)) (t : List (Nat × Nat))
    (h : t.Nodup) : (l.foldl insertPair t).Nodup := by
  induction l generalizing t with
  | nil => exact h
  | cons a l ih =>
    rw [List.foldl_cons]
    apply ih
    unfold insertPair
    by_cases ha : a ∈ t
    · rwa [if_pos ha]
    · rw [if_neg ha, List.nodup_append]
      exact ⟨h, List.nodup_singleton a, by
        intro x hx hx2
        rw [List.mem_singleton] at hx2
        exact ha (hx2 ▸ hx)⟩

theorem length_le_foldl_insertPair (l : List (Nat × Nat))
    (t : List (Nat × Nat)) : t.length ≤ (l.foldl insertPair t).length := by
  induction l generalizing t with
  | nil => exact Nat.le_refl _
  | cons a l ih =>
    rw [List.foldl_cons]
    refine Nat.le_trans ?_ (ih (insertPair t a))
    unfold insertPair
    by_cases ha : a ∈ t
    · rw [if_pos ha]
    · rw [if_neg ha, List.length_append]
      exact Nat.le_add_right _ _

theorem length_foldl_insertPair_le (l : List (Nat × Nat))
    (t : List (Nat × Nat)) :
    (l.foldl insertPair t).length ≤ t.length + l.length := by
  induction l generalizing t with
  | nil => simp
  | cons a l ih =>
    rw [List.foldl_cons]
    refine Nat.le_trans (ih (insertPair t a)) ?_
    have : (insertPair t a).length ≤ t.length + 1 := by
      unfold insertPair
      by_cases ha : a ∈ t
      · rw [if_pos ha]; exact Nat.le_succ _
      · rw [if_neg ha, List.length_append]; exact Nat.le_refl _
    simp only [List.length_cons]
    omega

theorem batchInsertCounts_sum (ws : List (List (Nat × Nat)))
    (t : List (Nat × Nat)) :
    (batchInsertCounts t ws).sum + t.length
      = (ws.flatten.foldl insertPair t).length := by
  induction ws generalizing t with
  | nil => simp [batchInsertCounts]
  | cons w ws ih =>
    rw [batchInsertCounts, List.sum_cons, List.flatten_cons,
      List.foldl_append]
    have h1 := length_le_foldl_insertPair w t
    have h2 := ih (w.foldl insertPair t)
    omega

theorem foldl_insertDim_nodup {ρ κ σ : Type} [DecidableEq κ] (key : ρ → κ)
    (f : σ → ρ) (l : List σ) (t : List (Nat × ρ))
    (h : (t.map (fun r => key r.2)).Nodup) :
    (((l.foldl (fun a v => insertDim key a (f v)) t)).map
      (fun r => key r.2)).Nodup := by
  induction l generalizing t with
  | nil => exact h
  | cons a l ih =>
    rw [List.foldl_cons]
    apply ih
    unfold insertDim
    by_cases hc : t.any (fun r => key r.2 = key (f a)) = true
    · rwa [if_pos hc]
    · rw [if_neg hc, List.map_append, List.map_cons, List.map_nil,
        List.nodup_append]
      refine ⟨h, List.nodup_singleton _, ?_⟩
      intro x hx hx2
      rw [List.mem_singleton] at hx2
      subst hx2
      rw [List.mem_map] at hx
      obtain ⟨r, hr, hkr⟩ := hx
      exact hc (List.any_eq_true.mpr ⟨r, hr, by simp [hkr]⟩)

theorem length_filter_eq_le_one {ρ κ : Type} [DecidableEq κ] (l : List ρ)
    (f : ρ → κ) (k : κ) (h : (l.map f).Nodup) :
    (l.filter (fun x => decide (f x = k))).length ≤ 1 := by
  induction l with
  | nil => simp
  | cons a l ih =>
    rw [List.map_cons, List.nodup_cons] at h
    obtain ⟨ha, hl⟩ := h
    by_cases hk : f a = k
    · have hnil : l.filter (fun x => decide (f x = k)) = [] := by
        rw [List.filter_eq_nil_iff]
        intro x hx hpx
        rw [decide_eq_true_eq] at hpx
        exact ha ((hpx.trans hk.symm) ▸ List.mem_map_of_mem f hx)
      simp [List.filter_cons, hk, hnil]
    · simpa [List.filter_cons, hk] using ih hl

/-! ## Helper lemmas: sorting and batching -/

theorem perm_insertSorted {α : Type} (le : α → α → Bool) (a : α)
    (l : List α) : List.Perm (insertSorted le a l) (a :: l) := by
  induction l with
  | nil => exact List.Perm.refl _
  | cons b l ih =>
    unfold insertSorted
    by_cases h : le a b = true
    · rw [if_pos h]
    · rw [if_neg h]
      exact (ih.cons b).trans (List.Perm.swap a b l)

theorem perm_sortBy {α : Type} (le : α → α → Bool) (l : List α) :
    List.Perm (sortBy le l) l := by
  induction l with
  | nil => exact List.Perm.refl _
  | cons a l ih =>
    unfold sortBy
    rw [List.foldr_cons]
    exact (perm_insertSorted le a _).trans (ih.cons a)

theorem flatten_batchesAux {α : Type} (rows : List α) (total batch : Nat)
    (hb : 0 < batch) (hlen : rows.length = total) (fuel : Nat) :
    ∀ offset, total - offset ≤ fuel →
      (batchesAux rows total batch fuel offset).flatten = rows.drop offset := by
  induction fuel with
  | zero =>
    intro offset hoff
    have : rows.length ≤ offset := by omega
    rw [batchesAux, List.drop_eq_nil_of_le this]
    rfl
  | succ fuel ih =>
    intro offset hoff
    rw [batchesAux]
    by_cases h : offset < total
    · rw [if_pos h, List.flatten_cons, ih (offset + batch) (by omega)]
      rw [show rows.drop (offset + batch) = (rows.drop offset).drop batch from
        (List.drop_drop batch offset rows).symm]
      exact List.take_append_drop batch (rows.drop offset)
    · rw [if_neg h]
      have : rows.length ≤ offset := by omega
      rw [List.drop_eq_nil_of_le this]
      rfl

theorem flatten_batches {α : Type} (rows : List α) (total batch : Nat)
    (hb : 0 < batch) (hlen : rows.length = total) :
    (batches rows total batch).flatten = rows := by
  rw [batches, flatten_batchesAux rows total batch hb hlen total 0 (by omega)]
  exact List.drop_zero rows

theorem mem_batchesAux_flatten {α : Type} {x : α} {rows : List α}
    {total batch : Nat} (fuel : Nat) :
    ∀ offset, x ∈ (batchesAux rows total batch fuel offset).flatten →
      x ∈ rows := by
  induction fuel with
  | zero =>
    intro offset h
    simp [batchesAux] at h
  | succ fuel ih =>
    intro offset h
    rw [batchesAux] at h
    by_cases hc : offset < total
    · rw [if_pos hc, List.flatten_cons, List.mem_append] at h
      rcases h with h | h
      · exact List.mem_of_mem_drop (List.mem_of_mem_take h)
      · exact ih (offset + batch) h
    · rw [if_neg hc] at h
      simp at h

theorem mem_batches_flatten {α : Type} {x : α} {rows : List α}
    {total batch : Nat} (h : x ∈ (batches rows total batch).flatten) :
    x ∈ rows :=
  mem_batchesAux_flatten total 0 h

/-! ## Helper lemmas: the location normalizer and the fact populator -/

theorem splitCommaChars_ne_nil (cs : List Char) : splitCommaChars cs ≠ [] := by
  induction cs with
  | nil => simp [splitCommaChars]
  | cons c cs ih =>
    rw [splitCommaChars]
    rcases h : splitCommaChars cs with _ | ⟨h1, t⟩
    · exact absurd h ih
    · by_cases hc : c = ','
      · simp [hc]
      · simp [hc]

theorem splitComma_ne_nil (s : String) : splitComma s ≠ [] := by
  unfold splitComma
  intro h
  exact splitCommaChars_ne_nil s.data (List.map_eq_nil_iff.mp h)

theorem leftIds_singleton (ms : List Nat) (h : ms.length ≤ 1) :
    ∃ o, leftIds ms = [o] := by
  match ms with
  | [] => exact ⟨none, rfl⟩
  | [m] => exact ⟨some m, rfl⟩
  | a :: b :: t => simp at h

theorem jobRowsFor_fields (db : DB) (s : StagingRow) (j : JobRow)
    (hj : j ∈ jobRowsFor db s) :
    j.job_title = coalesceOpt s.job_title s.job_title_short
    ∧ j.job_title_short = s.job_title_short
    ∧ j.job_posted_date = s.job_posted_date := by
  unfold jobRowsFor at hj
  rw [List.mem_flatMap] at hj
  obtain ⟨cid, _, hj⟩ := hj
  rw [List.mem_flatMap] at hj
  obtain ⟨lid, _, hj⟩ := hj
  rw [List.mem_flatMap] at hj
  obtain ⟨pid, _, hj⟩ := hj
  rw [List.mem_map] at hj
  obtain ⟨stid, _, hj⟩ := hj
  subst hj
  exact ⟨rfl, rfl, rfl⟩

theorem jobRowsFor_length_one (db : DB) (s : StagingRow)
    (h1 : (companyMatches db s).length ≤ 1)
    (h2 : (locationMatches db s).length ≤ 1)
    (h3 : (platformMatches db s).length ≤ 1)
    (h4 : (scheduleMatches db s).length ≤ 1) :
    (jobRowsFor db s).length = 1 := by
  obtain ⟨c, hc⟩ := leftIds_singleton _ h1
  obtain ⟨l, hl⟩ := leftIds_singleton _ h2
  obtain ⟨p, hp⟩ := leftIds_singleton _ h3
  obtain ⟨st, hst⟩ := leftIds_singleton _ h4
  unfold jobRowsFor
  rw [hc, hl, hp, hst]
  simp

theorem sum_map_ones {α : Type} (l : List α) (f : α → Nat)
    (h : ∀ x ∈ l, f x = 1) : (l.map f).sum = l.length := by
  induction l with
  | nil => rfl
  | cons a l ih =>
    rw [List.map_cons, List.sum_cons, h a (List.mem_cons_self a l),
      ih (fun x hx => h x (List.mem_cons_of_mem a hx)), List.length_cons]
    omega

theorem jobsSourceRows_mem (staging : List StagingRow) (s : StagingRow) :
    s ∈ jobsSourceRows staging ↔ s ∈ staging ∧ jobsPredicate s = true := by
  unfold jobsSourceRows
  rw [(perm_sortBy _ _).mem_iff, List.mem_filter]

/-! ## Helper lemmas: projections of the pipeline stages

Each populator is a pure structure update, so the untouched tables
project through it definitionally. -/

theorem staging_afterDims (db : DB) :
    (afterDims db).staging_jobs = db.staging_jobs := rfl

theorem staging_run (db : DB) :
    (run_transformation db).staging_jobs = db.staging_jobs := rfl

theorem jobs_afterDims (db : DB) : (afterDims db).jobs = [] := rfl

theorem job_skills_afterJobs (db : DB) : (afterJobs db).job_skills = [] := rfl

theorem jobs_run (db : DB) :
    (run_transformation db).jobs = (afterJobs db).jobs := rfl

theorem skills_run (db : DB) :
    (run_transformation db).skills = (afterDims db).skills := rfl

theorem afterJobs_jobs_eq (db : DB) :
    (afterJobs db).jobs
      = ((batches (jobsData (afterDims db)) (jobsTotal (afterDims db))
          BATCH_SIZE).flatten).enum.map (fun p => (0 + p.1 + 1, p.2)) := rfl

theorem run_job_skills_eq (db : DB) :
    (run_transformation db).job_skills
      = ((batches (bridgeData (afterJobs db)) (bridgeTotal (afterJobs db))
          (BATCH_SIZE * 10)).flatten).foldl insertPair [] := rfl

theorem run_determined (db1 db2 : DB)
    (h : db1.staging_jobs = db2.staging_jobs) :
    run_transformation db1 = run_transformation db2 := by
  have hdel : delete_previous_info db1 = delete_previous_info db2 := by
    unfold delete_previous_info
    rw [h]
  unfold run_transformation afterJobs afterDims
  rw [hdel]

theorem mem_run_jobs (db : DB) (j : Nat × JobRow)
    (hj : j ∈ (run_transformation db).jobs) :
    j.2 ∈ jobsData (afterDims db) := by
  rw [jobs_run, afterJobs_jobs_eq] at hj
  have h2 : j.2 ∈ ((batches (jobsData (afterDims db))
      (jobsTotal (afterDims db)) BATCH_SIZE).flatten) := by
    rw [List.mem_map] at hj
    obtain ⟨p, hp, hpj⟩ := hj
    have : p.2 ∈ List.map Prod.snd
        ((batches (jobsData (afterDims db)) (jobsTotal (afterDims db))
          BATCH_SIZE).flatten).enum := List.mem_map_of_mem Prod.snd hp
    rw [List.enum_map_snd] at this
    have hsnd : j.2 = p.2 := by rw [← hpj]
    rwa [hsnd]
  exact mem_batches_flatten h2

/-! ## Helper lemmas: uniqueness of the rebuilt dimension tables -/

theorem run_companies_eq (db : DB) :
    (run_transformation db).companies
      = (companySourceNames db.staging_jobs).foldl
          (fun t v => insertDim (fun n => n) t v) [] := rfl

theorem run_locations_eq (db : DB) :
    (run_transformation db).locations
      = (distinct (db.staging_jobs.map (fun s => (s.job_location, s.job_country)))).foldl
          (fun t pr => insertDim (fun r => r) t (locationRowOf pr.1 pr.2)) [] := rfl

theorem run_platforms_eq (db : DB) :
    (run_transformation db).platforms
      = (platformSourceNames db.staging_jobs).foldl
          (fun t v => insertDim (fun n => n) t v) [] := rfl

theorem run_schedule_types_eq (db : DB) :
    (run_transformation db).schedule_types
      = (scheduleSourceNames db.staging_jobs).foldl
          (fun t v => insertDim (fun n => n) t v) [] := rfl

theorem run_companies_nodup (db : DB) :
    ((run_transformation db).companies.map (fun r => r.2)).Nodup := by
  rw [run_companies_eq]
  exact foldl_insertDim_nodup (fun n : String => n) (fun n => n) _ [] (by simp)

theorem run_locations_nodup (db : DB) :
    ((run_transformation db).locations.map (fun r => r.2)).Nodup := by
  rw [run_locations_eq]
  exact foldl_insertDim_nodup (fun r : LocationRow => r) (fun pr : Option String × Option String => locationRowOf pr.1 pr.2) _ [] (by simp)

theorem run_platforms_nodup (db : DB) :
    ((run_transformation db).platforms.map (fun r => r.2)).Nodup := by
  rw [run_platforms_eq]
  exact foldl_insertDim_nodup (fun n : String => n) (fun n => n) _ [] (by simp)

theorem run_schedule_types_nodup (db : DB) :
    ((run_transformation db).schedule_types.map (fun r => r.2)).Nodup := by
  rw [run_schedule_types_eq]
  exact foldl_insertDim_nodup (fun n : String => n) (fun n => n) _ [] (by simp)

theorem run_skill_categories_nodup (db : DB) :
    ((run_transformation db).skill_categories.map (fun r => r.2)).Nodup := by
  exact foldl_insertDim_nodup (fun n : String => n)
    (fun c : String × List String => c.1) _ [] (by simp)

theorem run_skills_nodup (db : DB) :
    ((run_transformation db).skills.map (fun r => r.2.skill_name)).Nodup := by
  exact foldl_insertDim_nodup (fun r : SkillRow => r.skill_name)
    (fun nm => (⟨lowerStr (pyStrip nm), none⟩ : SkillRow)) _ _
    (foldl_insertDim_nodup (fun r : SkillRow => r.skill_name)
      (fun r => r) _ [] (by simp))

theorem afterDims_companies_nodup (db : DB) :
    ((afterDims db).companies.map (fun r => r.2)).Nodup := by
  exact foldl_insertDim_nodup (fun n : String => n) (fun n => n) _ [] (by simp)

theorem afterDims_platforms_nodup (db : DB) :
    ((afterDims db).platforms.map (fun r => r.2)).Nodup := by
  exact foldl_insertDim_nodup (fun n : String => n) (fun n => n) _ [] (by simp)

theorem afterDims_schedule_types_nodup (db : DB) :
    ((afterDims db).schedule_types.map (fun r => r.2)).Nodup := by
  exact foldl_insertDim_nodup (fun n : String => n) (fun n => n) _ [] (by simp)

/-! ## Helper lemmas: at most one dimension match per staging row -/

theorem companyMatches_le_one (db : DB)
    (hn : (db.companies.map (fun r => r.2)).Nodup) (s : StagingRow) :
    (companyMatches db s).length ≤ 1 := by
  unfold companyMatches dimMatches
  rw [List.length_map]
  exact length_filter_eq_le_one _ (fun r : Nat × String => r.2) _ hn

theorem locationMatches_le_one (db : DB)
    (hn : (db.locations.map
      (fun r => (r.2.country, r.2.full_location))).Nodup) (s : StagingRow) :
    (locationMatches db s).length ≤ 1 := by
  unfold locationMatches dimMatches
  rw [List.length_map]
  have hcongr :
      db.locations.filter (fun r =>
        decide (r.2.country = coalesce s.job_country "Unknown"
          ∧ r.2.full_location = coalesce s.job_location "Unknown"))
      = db.locations.filter (fun r =>
        decide ((r.2.country, r.2.full_location)
          = (coalesce s.job_country "Unknown",
             coalesce s.job_location "Unknown"))) := by
    apply List.filter_congr
    intro x _
    rw [decide_eq_decide, Prod.mk.injEq]
  rw [hcongr]
  exact length_filter_eq_le_one _
    (fun r : Nat × LocationRow => (r.2.country, r.2.full_location)) _ hn

theorem platformMatches_le_one (db : DB)
    (hn : (db.platforms.map (fun r => r.2)).Nodup) (s : StagingRow) :
    (platformMatches db s).length ≤ 1 := by
  unfold platformMatches
  cases s.job_via with
  | none => simp
  | some v =>
    unfold dimMatches
    rw [List.length_map]
    exact length_filter_eq_le_one _ (fun r : Nat × String => r.2) _ hn

theorem scheduleMatches_le_one (db : DB)
    (hn : (db.schedule_types.map (fun r => r.2)).Nodup) (s : StagingRow) :
    (scheduleMatches db s).length ≤ 1 := by
  unfold scheduleMatches
  cases s.job_schedule_type with
  | none => simp
  | some v =>
    unfold dimMatches
    rw [List.length_map]
    exact length_filter_eq_le_one _ (fun r : Nat × String => r.2) _ hn

/-- When every staging row matches at most one row in every dimension,
the insert query of `populate_jobs` produces exactly one fact row per
qualifying staging row, so its result-set size equals the precomputed
total. -/
theorem jobsData_length (db : DB)
    (hc : (db.companies.map (fun r => r.2)).Nodup)
    (hl : (db.locations.map
      (fun r => (r.2.country, r.2.full_location))).Nodup)
    (hp : (db.platforms.map (fun r => r.2)).Nodup)
    (hs : (db.schedule_types.map (fun r => r.2)).Nodup) :
    (jobsData db).length = jobsTotal db := by
  unfold jobsData
  rw [List.length_flatMap]
  have h1 : (List.map (List.length ∘ jobRowsFor db)
      (jobsSourceRows db.staging_jobs)).sum
      = (jobsSourceRows db.staging_jobs).length :=
    sum_map_ones _ _ (fun s _ => jobRowsFor_length_one db s
      (companyMatches_le_one db hc s) (locationMatches_le_one db hl s)
      (platformMatches_le_one db hp s) (scheduleMatches_le_one db hs s))
  rw [h1]
  unfold jobsTotal
  exact (perm_sortBy _ _).length_eq

/-! ## Claims -/

/-- **C1** (code-bug evidence): evaluated at a staging table holding a
row with a `NULL` company name and a row with a blank company name
(both rows otherwise qualifying), the companies populator inserts
nothing at all: under SQL three-valued logic the clause
`WHERE TRIM(company_name) != ''` silently drops both rows before the
`COALESCE(company_name, 'Unknown')` in the same statement can collapse
them, so — contrary to the claim — no company row named "Unknown"
exists after `populate_companies` (nor after the full run). -/
theorem c1_unknown_company_never_created :
    c1DB.staging_jobs.map (fun s => s.company_name) = [none, some "   "]
    ∧ companySourceNames c1DB.staging_jobs = []
    ∧ (populate_companies (delete_previous_info c1DB)).companies = []
    ∧ (run_transformation c1DB).companies = [] := by decide

/-- **C8**: on the staging snapshot whose row carries typed skills
`{"programming": ["Python", "SQL"]}` and flat skills
`["python", "sql", "aws"]`, the skill taxonomy builder produces the
category row "programming" and exactly the skill rows "python" and
"sql" with that category's id and "aws" with `NULL` category: the
categorized lowercase-trimmed insertions run first, and the flat-list
pass only inserts names not already present. -/
theorem c8_skill_taxonomy_scenario :
    (populate_skill_categories_and_skills
        (delete_previous_info c8DB)).skill_categories = [(1, "programming")]
    ∧ (populate_skill_categories_and_skills (delete_previous_info c8DB)).skills
        = [(1, ⟨"python", some 1⟩), (2, ⟨"sql", some 1⟩), (3, ⟨"aws", none⟩)] := by
  decide

/-- **C4** (counterexample): the Location Normalizer does not return
"city = first segment, state/province = second segment" on every
2-segment input: for the location string "a," the trimmed segments are
`["a", ""]`, yet the returned state/province is `NULL`, not the second
segment `""` — empty trimmed segments collapse to `NULL`. -/
theorem c4_counterexample :
    (splitComma (pyStrip "a,")).map pyStrip = ["a", ""]
    ∧ (extract_location_components (some "a,") (some "B")).state_province = none
    ∧ (extract_location_components (some "a,") (some "B")).state_province
        ≠ some "" := by decide

/-- **C4** (amended): for every location string and country, the
Location Normalizer passes the country through unchanged; an absent
(`NULL`/NaN) or empty location yields `NULL` city and `NULL`
state/province; otherwise the string is split on commas with each
segment trimmed (at least one segment always results), one segment
yields city = that segment and `NULL` state/province, and two or more
segments yield city = first segment and state/province = second
segment with further segments ignored — except that an empty trimmed
segment yields `NULL` for its component instead of the empty string. -/
theorem c4_location_normalizer_amended (loc country : Option String) :
    (extract_location_components loc country).country = country
    ∧ (loc = none →
        extract_location_components loc country = ⟨none, none, country⟩)
    ∧ (loc = some "" →
        extract_location_components loc country = ⟨none, none, country⟩)
    ∧ (∀ raw, loc = some raw → raw ≠ "" →
        ((splitComma (pyStrip raw)).map pyStrip ≠ []
         ∧ (((splitComma (pyStrip raw)).map pyStrip).length = 1 →
             extract_location_components loc country
               = ⟨emptyToNone (((splitComma (pyStrip raw)).map pyStrip).getD 0 ""),
                  none, country⟩)
         ∧ (2 ≤ ((splitComma (pyStrip raw)).map pyStrip).length →
             extract_location_components loc country
               = ⟨emptyToNone (((splitComma (pyStrip raw)).map pyStrip).getD 0 ""),
                  emptyToNone (((splitComma (pyStrip raw)).map pyStrip).getD 1 ""),
                  country⟩))) := by
  cases loc with
  | none =>
    refine ⟨rfl, fun _ => rfl, fun h => ?_, fun raw h => ?_⟩
    · simp at h
    · simp at h
  | some raw =>
    by_cases hraw : raw = ""
    · subst hraw
      refine ⟨rfl, fun h => ?_, fun _ => rfl, fun raw2 h h2 => ?_⟩
      · simp at h
      · rw [Option.some_inj] at h
        exact absurd h.symm h2
    · have hne : (splitComma (pyStrip raw)).map pyStrip ≠ [] := by
        intro h
        exact splitComma_ne_nil (pyStrip raw) (List.map_eq_nil_iff.mp h)
      have hext : extract_location_components (some raw) country
          = (match (splitComma (pyStrip raw)).map pyStrip with
             | p1 :: p2 :: _ :: _ => ⟨emptyToNone p1, emptyToNone p2, country⟩
             | [p1, p2] => ⟨emptyToNone p1, emptyToNone p2, country⟩
             | [p1] => ⟨emptyToNone p1, none, country⟩
             | [] => (⟨none, none, country⟩ : LocComponents)) := by
        simp only [extract_location_components]
        rw [if_neg hraw]
      rcases hp : (splitComma (pyStrip raw)).map pyStrip with _ | ⟨p1, rest⟩
      · exact absurd hp hne
      · rcases rest with _ | ⟨p2, rest2⟩
        · rw [hp] at hext
          refine ⟨by rw [hext], fun h => by simp at h, fun h => ?_,
            fun raw2 hr h2 => ?_⟩
          · rw [Option.some_inj] at h
            exact absurd h hraw
          · rw [Option.some_inj] at hr
            subst hr
            refine ⟨hne, fun _ => ?_, fun hlen => ?_⟩
            · rw [hext, hp]
              rfl
            · rw [hp] at hlen
              simp at hlen
        · rcases rest2 with _ | ⟨p3, rest3⟩
          · rw [hp] at hext
            refine ⟨by rw [hext], fun h => by simp at h, fun h => ?_,
              fun raw2 hr h2 => ?_⟩
            · rw [Option.some_inj] at h
              exact absurd h hraw
            · rw [Option.some_inj] at hr
              subst hr
              refine ⟨hne, fun hlen => ?_, fun _ => ?_⟩
              · rw [hp] at hlen
                simp at hlen
              · rw [hext, hp]
                rfl
          · rw [hp] at hext
            refine ⟨by rw [hext], fun h => by simp at h, fun h => ?_,
              fun raw2 hr h2 => ?_⟩
            · rw [Option.some_inj] at h
              exact absurd h hraw
            · rw [Option.some_inj] at hr
              subst hr
              refine ⟨hne, fun hlen => ?_, fun _ => ?_⟩
              · rw [hp] at hlen
                simp at hlen
              · rw [hext, hp]
                rfl

/-- **C4** (witness): the amended theorem applied to the spec's
Rio de Janeiro scenario. -/
theorem c4_location_normalizer_amended_witness :
    2 ≤ ((splitComma
        (pyStrip "Rio de Janeiro, State of Rio de Janeiro, Brazil")).map
        pyStrip).length
    ∧ extract_location_components
        (some "Rio de Janeiro, State of Rio de Janeiro, Brazil") (some "Brazil")
      = ⟨some "Rio de Janeiro", some "State of Rio de Janeiro", some "Brazil"⟩ := by
  refine ⟨by decide, ?_⟩
  have h := (c4_location_normalizer_amended
    (some "Rio de Janeiro, State of Rio de Janeiro, Brazil") (some "Brazil")).2.2.2
    "Rio de Janeiro, State of Rio de Janeiro, Brazil" rfl (by decide)
  rw [h.2.2 (by decide)]
  decide

/-- **C5**: after the fact populator runs, no jobs row has both title
and title-short `NULL`, and a staging row is eligible for insertion
(belongs to the ordered source rows of the insert query) exactly when
not both its title and title-short are absent. -/
theorem c5_exclusion_law (db : DB) :
    (∀ j ∈ (run_transformation db).jobs,
      ¬(j.2.job_title = none ∧ j.2.job_title_short = none))
    ∧ (∀ s ∈ db.staging_jobs,
        (¬(s.job_title = none ∧ s.job_title_short = none)
          ↔ s ∈ jobsSourceRows db.staging_jobs)) := by
  constructor
  · intro j hj
    have hd := mem_run_jobs db j hj
    unfold jobsData at hd
    rw [List.mem_flatMap] at hd
    obtain ⟨s, hs, hrow⟩ := hd
    obtain ⟨ht, hts, _⟩ := jobRowsFor_fields _ s j.2 hrow
    have hpred : jobsPredicate s = true :=
      ((jobsSourceRows_mem _ s).mp hs).2
    rintro ⟨h1, h2⟩
    rw [ht] at h1
    rw [hts] at h2
    cases hst : s.job_title with
    | some t =>
      rw [hst] at h1
      simp [coalesceOpt] at h1
    | none =>
      rw [hst] at h1
      simp only [coalesceOpt] at h1
      unfold jobsPredicate at hpred
      rw [hst, h1] at hpred
      simp at hpred
  · intro s hs
    rw [jobsSourceRows_mem]
    unfold jobsPredicate
    simp [hs, Option.isNone_iff_eq_none, Option.isSome_iff_ne_none, not_and]
    tauto

/-- **C5** (witness): the first jobs row of the run over the concrete
snapshot `wDB` satisfies the exclusion law. -/
theorem c5_exclusion_law_witness :
    (run_transformation wDB).jobs.headI ∈ (run_transformation wDB).jobs
    ∧ ¬((run_transformation wDB).jobs.headI.2.job_title = none
        ∧ (run_transformation wDB).jobs.headI.2.job_title_short = none) := by
  have hm : (run_transformation wDB).jobs.headI ∈ (run_transformation wDB).jobs := by
    decide
  exact ⟨hm, (c5_exclusion_law wDB).1 _ hm⟩

/-- **C9**: every inserted fact row stores
`job_title = COALESCE(raw title, title-short)` of some qualifying
staging row (hence a non-`NULL` job_title), and the bridge stage's
title re-match predicate (three-valued `=`) only succeeds when the raw
staging title equals this stored coalesced value and neither side is
`NULL`. -/
theorem c9_job_title_coalesced (db : DB) :
    (∀ j ∈ (run_transformation db).jobs,
      j.2.job_title ≠ none
      ∧ ∃ s ∈ db.staging_jobs,
          jobsPredicate s = true
          ∧ j.2.job_title = coalesceOpt s.job_title s.job_title_short
          ∧ j.2.job_title_short = s.job_title_short)
    ∧ (∀ jt st : Option String,
        sqlEqOpt jt st = true → st = jt ∧ jt ≠ none) := by
  constructor
  · intro j hj
    have hd := mem_run_jobs db j hj
    unfold jobsData at hd
    rw [List.mem_flatMap] at hd
    obtain ⟨s, hs, hrow⟩ := hd
    obtain ⟨ht, hts, _⟩ := jobRowsFor_fields _ s j.2 hrow
    obtain ⟨hsmem, hpred⟩ := (jobsSourceRows_mem _ s).mp hs
    refine ⟨?_, s, hsmem, hpred, ht, hts⟩
    rw [ht]
    cases hst : s.job_title with
    | some t => simp [coalesceOpt]
    | none =>
      simp only [coalesceOpt]
      cases hsts : s.job_title_short with
      | some u => simp
      | none =>
        unfold jobsPredicate at hpred
        rw [hst, hsts] at hpred
        simp at hpred
  · intro jt st h
    cases jt with
    | none => simp [sqlEqOpt] at h
    | some a =>
      cases st with
      | none => simp [sqlEqOpt] at h
      | some b =>
        simp only [sqlEqOpt, decide_eq_true_eq] at h
        exact ⟨by rw [h], by simp⟩

/-- **C9** (witness): the coalesced-title property evaluated on the
first jobs row of the run over `wDB`. -/
theorem c9_job_title_coalesced_witness :
    (run_transformation wDB).jobs.headI ∈ (run_transformation wDB).jobs
    ∧ ((run_transformation wDB).jobs.headI.2.job_title ≠ none
       ∧ ∃ s ∈ wDB.staging_jobs,
           jobsPredicate s = true
           ∧ (run_transformation wDB).jobs.headI.2.job_title
               = coalesceOpt s.job_title s.job_title_short
           ∧ (run_transformation wDB).jobs.headI.2.job_title_short
               = s.job_title_short) := by
  have hm : (run_transformation wDB).jobs.headI ∈ (run_transformation wDB).jobs := by
    decide
  exact ⟨hm, (c9_job_title_coalesced wDB).1 _ hm⟩

/-- **C2** (counterexample): a job whose originating staging row has a
non-empty skill list does not necessarily receive bridge rows: on the
snapshot `c2DB` (raw title `NULL`, title-short "Engineer", a posted
date, skills `["python"]`) the fact row stores the coalesced title
"Engineer", the skill row "python" exists, yet the bridge re-match
compares the stored title with the `NULL` raw staging title and the
bridge table stays empty. -/
theorem c2_counterexample :
    (1, ({ job_title := some "Engineer", job_title_short := some "Engineer",
           company_id := none, location_id := some 1, platform_id := none,
           schedule_type_id := none, job_work_from_home := none,
           job_posted_date := some "2023-01-01", job_no_degree_mention := none,
           job_health_insurance := none, salary_rate := none,
           salary_year_avg := none, salary_hour_avg := none,
           search_location := none } : JobRow)) ∈ (run_transformation c2DB).jobs
    ∧ (1, (⟨"python", none⟩ : SkillRow)) ∈ (run_transformation c2DB).skills
    ∧ c2DB.staging_jobs.map (fun s => s.job_skills) = [some ["python"]]
    ∧ (run_transformation c2DB).job_skills = [] := by decide

/-- **C2** (amended): after the full run, the bridge populator
re-matches jobs to staging rows by three-valued equality on (stored
title, posted date) — no persisted identifier — and for every job row,
staging row, skill-list element and skill row satisfying that join
(which requires the raw staging title and posted date to be
non-`NULL`), the bridge holds the (job, skill) pair; in particular a
job whose originating staging row has a non-`NULL` raw title, a
non-`NULL` posted date and a non-empty skill list receives its bridge
rows. -/
theorem c2_bridge_rows_amended (db : DB) :
    ∀ j ∈ (run_transformation db).jobs,
    ∀ stg ∈ db.staging_jobs,
    ∀ t d : String,
      j.2.job_title = some t → stg.job_title = some t →
      j.2.job_posted_date = some d → stg.job_posted_date = some d →
    ∀ nm ∈ stg.job_skills.getD [],
    ∀ sk ∈ (run_transformation db).skills,
      lowerStr (sqlTrim nm) = lowerStr sk.2.skill_name →
      (j.1, sk.1) ∈ (run_transformation db).job_skills := by
  intro j hj stg hstg t d hjt hst hjd hsd nm hnm sk hsk hmatch
  have hjoin : (j.1, sk.1) ∈ bridgeJoinRows (afterJobs db) := by
    unfold bridgeJoinRows
    rw [List.mem_flatMap]
    refine ⟨j, hj, ?_⟩
    rw [List.mem_flatMap]
    refine ⟨stg, hstg, ?_⟩
    have hcond : (sqlEqOpt j.2.job_title stg.job_title
        && sqlEqOpt j.2.job_posted_date stg.job_posted_date) = true := by
      rw [hjt, hst, hjd, hsd]
      simp [sqlEqOpt]
    rw [if_pos hcond, List.mem_flatMap]
    refine ⟨nm, hnm, ?_⟩
    rw [List.mem_map]
    refine ⟨sk.1, ?_, rfl⟩
    unfold dimMatches
    have hsk2 : sk ∈ ((run_transformation db).skills).filter
        (fun r => decide (lowerStr (sqlTrim nm) = lowerStr r.2.skill_name)) :=
      List.mem_filter.mpr ⟨hsk, by simp [hmatch]⟩
    exact List.mem_map_of_mem (fun r => r.1) hsk2
  have hdata : (j.1, sk.1) ∈ bridgeData (afterJobs db) :=
    (perm_sortBy pairLE _).mem_iff.mpr hjoin
  have hlen : (bridgeData (afterJobs db)).length = bridgeTotal (afterJobs db) :=
    (perm_sortBy pairLE _).length_eq
  have hflat := flatten_batches (bridgeData (afterJobs db))
    (bridgeTotal (afterJobs db)) (BATCH_SIZE * 10) (by decide) hlen
  rw [run_job_skills_eq, hflat]
  exact (foldl_insertPair_mem _ _ _).mpr (Or.inr hdata)

/-- **C2** (witness): the amended theorem evaluated on `wDB`, whose
single staging row has raw title "T", posted date "2023-05-05" and
skill list `["Python"]`: the pair of the first job row and the first
skill row lies in the bridge table. -/
theorem c2_bridge_rows_amended_witness :
    (run_transformation wDB).jobs.headI ∈ (run_transformation wDB).jobs
    ∧ ((run_transformation wDB).jobs.headI.1,
        (run_transformation wDB).skills.headI.1)
        ∈ (run_transformation wDB).job_skills := by
  refine ⟨by decide, ?_⟩
  exact c2_bridge_rows_amended wDB _ (by decide) wDB.staging_jobs.headI
    (by decide) "T" "2023-05-05" (by decide) (by decide) (by decide) (by decide)
    "Python" (by decide) _ (by decide) (by decide)

/-- **C3** (counterexample): on the snapshot `c3DB` both batch-count
equalities fail.  The fact stage: the staging rows with a `NULL`
location and with the literal location "Unknown" (same country) create
two location rows sharing the (country, full_location) join key, so
both staging rows match both location rows and the batches report 4
inserted rows against a precomputed total of 2.  The bridge stage: the
flat skill list `["Python", "python"]` maps both elements to the same
skill row, so `ON CONFLICT DO NOTHING` discards the duplicate pair and
the batches report 2 inserted rows against a precomputed total of 4. -/
theorem c3_counterexample :
    jobsTotal (afterDims c3DB) = 2
    ∧ (jobsBatchCounts (afterDims c3DB)).sum = 4
    ∧ bridgeTotal (afterJobs c3DB) = 4
    ∧ (bridgeBatchCounts (afterJobs c3DB)).sum = 2 := by decide

/-- **C3** (amended): the totals are computed once up front with the
same predicate (resp. the same join) as the batched insert queries,
and the batch windows tile the ordered result sets; consequently, for
the fact populator the reported counts sum to the precomputed total
provided no two location rows share the same (country, full raw
string) join key — the other three dimensions are unique by
construction — and for the bridge populator the reported counts sum to
the number of distinct (job, skill) pairs of the join (the final
bridge-table size), which is at most the precomputed total. -/
theorem c3_batch_sums_amended (db : DB)
    (hloc : ((afterDims db).locations.map
      (fun r => (r.2.country, r.2.full_location))).Nodup) :
    (jobsBatchCounts (afterDims db)).sum = jobsTotal (afterDims db)
    ∧ (bridgeBatchCounts (afterJobs db)).sum
        = (run_transformation db).job_skills.length
    ∧ (bridgeBatchCounts (afterJobs db)).sum ≤ bridgeTotal (afterJobs db) := by
  have hlen := jobsData_length (afterDims db) (afterDims_companies_nodup db)
    hloc (afterDims_platforms_nodup db) (afterDims_schedule_types_nodup db)
  have hflat := flatten_batches (jobsData (afterDims db))
    (jobsTotal (afterDims db)) BATCH_SIZE (by decide) hlen
  have hsum := batchInsertCounts_sum
    (batches (bridgeData (afterJobs db)) (bridgeTotal (afterJobs db))
      (BATCH_SIZE * 10)) []
  have hlen2 : (bridgeData (afterJobs db)).length = bridgeTotal (afterJobs db) :=
    (perm_sortBy pairLE _).length_eq
  have hflat2 := flatten_batches (bridgeData (afterJobs db))
    (bridgeTotal (afterJobs db)) (BATCH_SIZE * 10) (by decide) hlen2
  refine ⟨?_, ?_, ?_⟩
  · unfold jobsBatchCounts
    rw [← List.length_flatten, hflat, hlen]
  · unfold bridgeBatchCounts
    rw [job_skills_afterJobs, run_job_skills_eq]
    simp only [List.length_nil] at hsum
    omega
  · unfold bridgeBatchCounts
    rw [job_skills_afterJobs]
    have hle := length_foldl_insertPair_le
      ((batches (bridgeData (afterJobs db)) (bridgeTotal (afterJobs db))
        (BATCH_SIZE * 10)).flatten) []
    rw [hflat2] at hle hsum
    simp only [List.length_nil] at hsum hle
    omega

/-- **C3** (witness): the amended fact-stage equality evaluated on
`wDB`, whose single location row makes the join key unique. -/
theorem c3_batch_sums_amended_witness :
    ((afterDims wDB).locations.map
      (fun r => (r.2.country, r.2.full_location))).Nodup
    ∧ (jobsBatchCounts (afterDims wDB)).sum = jobsTotal (afterDims wDB) := by
  have h : ((afterDims wDB).locations.map
      (fun r => (r.2.country, r.2.full_location))).Nodup := by decide
  exact ⟨h, (c3_batch_sums_amended wDB h).1⟩

/-- **C6**: after the bridge populator completes, the bridge table
holds at most one row per (job, skill) pair: every batch window is
folded in with insert-if-absent on the pair (the modelled
`ON CONFLICT DO NOTHING` against the composite uniqueness), so the
final list of pairs has no duplicates, whatever overlaps the windows
produce. -/
theorem c6_bridge_uniqueness (db : DB) :
    ((run_transformation db).job_skills).Nodup := by
  rw [run_job_skills_eq]
  exact foldl_insertPair_nodup _ [] List.nodup_nil

/-- **C7**: running the transformation twice against the same staging
snapshot yields identical dimension-table contents (the second run
purges everything and rebuilds deterministically from the unchanged
staging table), and each dimension's natural keys are duplicate-free. -/
theorem c7_idempotence (db : DB) :
    ((run_transformation (run_transformation db)).companies
        = (run_transformation db).companies
      ∧ (run_transformation (run_transformation db)).locations
        = (run_transformation db).locations
      ∧ (run_transformation (run_transformation db)).platforms
        = (run_transformation db).platforms
      ∧ (run_transformation (run_transformation db)).schedule_types
        = (run_transformation db).schedule_types
      ∧ (run_transformation (run_transformation db)).skill_categories
        = (run_transformation db).skill_categories
      ∧ (run_transformation (run_transformation db)).skills
        = (run_transformation db).skills)
    ∧ (((run_transformation db).companies.map (fun r => r.2)).Nodup
      ∧ ((run_transformation db).locations.map (fun r => r.2)).Nodup
      ∧ ((run_transformation db).platforms.map (fun r => r.2)).Nodup
      ∧ ((run_transformation db).schedule_types.map (fun r => r.2)).Nodup
      ∧ ((run_transformation db).skill_categories.map (fun r => r.2)).Nodup
      ∧ ((run_transformation db).skills.map
          (fun r => r.2.skill_name)).Nodup) := by
  have hrun : run_transformation (run_transformation db) = run_transformation db :=
    run_determined _ _ (staging_run db)
  exact ⟨⟨congrArg DB.companies hrun, congrArg DB.locations hrun,
      congrArg DB.platforms hrun, congrArg DB.schedule_types hrun,
      congrArg DB.skill_categories hrun, congrArg DB.skills hrun⟩,
    run_companies_nodup db, run_locations_nodup db, run_platforms_nodup db,
    run_schedule_types_nodup db, run_skill_categories_nodup db,
    run_skills_nodup db⟩

/-- **C10**: the purge step empties exactly the eight destination
tables and leaves the staging table untouched, every other stage of
the transform preserves the staging table, and the staging table after
a full run equals the staging table before it. -/
theorem c10_frame_staging (db : DB) :
    (delete_previous_info db).staging_jobs = db.staging_jobs
    ∧ (delete_previous_info db).job_skills = []
    ∧ (delete_previous_info db).jobs = []
    ∧ (delete_previous_info db).skills = []
    ∧ (delete_previous_info db).skill_categories = []
    ∧ (delete_previous_info db).companies = []
    ∧ (delete_previous_info db).locations = []
    ∧ (delete_previous_info db).platforms = []
    ∧ (delete_previous_info db).schedule_types = []
    ∧ (populate_companies db).staging_jobs = db.staging_jobs
    ∧ (populate_locations db).staging_jobs = db.staging_jobs
    ∧ (populate_platforms db).staging_jobs = db.staging_jobs
    ∧ (populate_schedule_types db).staging_jobs = db.staging_jobs
    ∧ (populate_skill_categories_and_skills db).staging_jobs = db.staging_jobs
    ∧ (populate_jobs db).staging_jobs = db.staging_jobs
    ∧ (populate_job_skills db).staging_jobs = db.staging_jobs
    ∧ (run_transformation db).staging_jobs = db.staging_jobs :=
  ⟨rfl, rfl, rfl, rfl, rfl, rfl, rfl, rfl, rfl, rfl, rfl, rfl, rfl, rfl,
    rfl, rfl, rfl⟩

end JobETL
